import Mathlib

set_option linter.unusedVariables false
set_option maxRecDepth 4096

/-! Shallow embedding of the schema-inference engine of api-detect-extensions:
`src/utils/typeGenerator.ts` and the background pipeline in `src/unnamed/part_000`.
JavaScript values are modelled as the inductive `JVal`; object reference identity
(used by the `visitedObjects` WeakSet) is modelled by an `oid : Nat` tag on objects,
and the WeakSet itself as an explicit `List Nat` threaded through the functions. -/

/-- A JavaScript/JSON value as handled by typeGenerator.ts.  `jobj oid fields`
carries the object's reference identity `oid`; `jundef` is the `undefined` value. -/
inductive JVal where
  | jnull
  | jundef
  | jbool (b : Bool)
  | jnum (n : Int)
  | jstr (s : String)
  | jarr (xs : List JVal)
  | jobj (oid : Nat) (fields : List (String × JVal))

/-- Insert `x` at the back unless already present (JS `Set` insertion-order semantics). -/
def addUnique [DecidableEq α] (acc : List α) (x : α) : List α :=
  if x ∈ acc then acc else acc ++ [x]

/-- `Array.from(new Set(l))`: deduplicate keeping first occurrences in order. -/
def dedupFirst [DecidableEq α] (l : List α) : List α :=
  l.foldl addUnique []

/-- `' '.repeat(n)`. -/
def spaces (n : Nat) : String :=
  String.mk (List.replicate n ' ')

/-- Options record of typeGenerator.ts; field defaults mirror `DEFAULT_OPTIONS`. -/
structure TypeGenerationOptions where
  indentSize : Nat := 2
  detectDates : Bool := true
  analyzeAllArrayElements : Bool := false
  readonly : Bool := false
  generateComments : Bool := false
  maxArraySamples : Nat := 100

/-- `DEFAULT_OPTIONS` of typeGenerator.ts. -/
def DEFAULT_OPTIONS : TypeGenerationOptions := {}

/-- Consume exactly `n` decimal digits from the front of the character list. -/
def consumeDigits : Nat → List Char → Option (List Char)
  | 0, cs => some cs
  | _ + 1, [] => none
  | n + 1, c :: cs => if c.isDigit then consumeDigits n cs else none

/-- Matcher for the regex of isDateString:
`^\d\x7b4\x7d-\d\x7b2\x7d-\d\x7b2\x7d(T\d\x7b2\x7d:\d\x7b2\x7d:\d\x7b2\x7d(\.\d\x7b3\x7d)?Z?)?$`. -/
def isoDatePatternTest (s : String) : Bool :=
  let tail? : Option (List Char) := do
    let cs ← consumeDigits 4 s.data
    let cs ← if cs.head? = some '-' then some cs.tail else none
    let cs ← consumeDigits 2 cs
    let cs ← if cs.head? = some '-' then some cs.tail else none
    consumeDigits 2 cs
  match tail? with
  | none => false
  | some [] => true
  | some (c :: cs) =>
    if c ≠ 'T' then false
    else
      let time? : Option (List Char) := do
        let cs ← consumeDigits 2 cs
        let cs ← if cs.head? = some ':' then some cs.tail else none
        let cs ← consumeDigits 2 cs
        let cs ← if cs.head? = some ':' then some cs.tail else none
        consumeDigits 2 cs
      match time? with
      | none => false
      | some rest =>
        let afterMs :=
          match rest with
          | '.' :: ms => (consumeDigits 3 ms).getD ['.']
          | other => other
        match afterMs with
        | [] => true
        | ['Z'] => true
        | _ => false

/-- Numeric value of a run of digit characters. -/
def digitsToNat (cs : List Char) : Nat :=
  cs.foldl (fun acc c => acc * 10 + (c.toNat - 48)) 0

/-- Days in a month, with Gregorian leap years (models the ECMAScript calendar). -/
def daysInMonth (year month : Nat) : Nat :=
  if month = 2 then
    if year % 4 = 0 ∧ (year % 100 ≠ 0 ∨ year % 400 = 0) then 29 else 28
  else if month = 4 ∨ month = 6 ∨ month = 9 ∨ month = 11 then 30
  else 31

/-- Models the `new Date(value)` validity check (`!isNaN(date.getTime())`) for a
string already matching the ISO pattern: components must be in calendar range
(ECMAScript allows hour 24 only with zero minutes/seconds). -/
def isValidDateComponents (s : String) : Bool :=
  let cs := s.data
  let year := digitsToNat (cs.take 4)
  let month := digitsToNat ((cs.drop 5).take 2)
  let day := digitsToNat ((cs.drop 8).take 2)
  let dateOk :=
    decide (1 ≤ month) && decide (month ≤ 12) &&
    decide (1 ≤ day) && decide (day ≤ daysInMonth year month)
  if cs.length ≤ 10 then dateOk
  else
    let hh := digitsToNat ((cs.drop 11).take 2)
    let mm := digitsToNat ((cs.drop 14).take 2)
    let ss := digitsToNat ((cs.drop 17).take 2)
    let timeOk :=
      (decide (hh < 24) || (decide (hh = 24) && decide (mm = 0) && decide (ss = 0))) &&
      decide (mm < 60) && decide (ss < 60)
    dateOk && timeOk

/-- `isDateString` of typeGenerator.ts: ISO-ish pattern plus a parseable instant. -/
def isDateString (s : String) : Bool :=
  isoDatePatternTest s && isValidDateComponents s

/-- The quoting rule for property keys: regex `^[a-zA-Z_$][a-zA-Z0-9_$]*$`. -/
def isValidIdentKey (s : String) : Bool :=
  match s.data with
  | [] => false
  | c :: cs =>
    (c.isAlpha || c = '_' || c = '$') &&
    cs.all (fun d => d.isAlpha || d.isDigit || d = '_' || d = '$')

/-- Quote a key unless it is a valid bare identifier. -/
def safeKey (k : String) : String :=
  if isValidIdentKey k then k else "\"" ++ k ++ "\""

mutual
/-- `inferType` of typeGenerator.ts.  `visited` is the module-level `visitedObjects`
WeakSet at call time; `inferType` reads it but never adds to it. -/
def inferType (visited : List Nat) (opts : TypeGenerationOptions) : JVal → String
  | .jnull => "null"
  | .jundef => "undefined"
  | .jbool _ => "boolean"
  | .jnum _ => "number"
  | .jstr s =>
    if opts.detectDates && isDateString s then "string /* ISO Date */" else "string"
  | .jarr xs =>
    match xs with
    | [] => "any[]"
    | _ :: _ =>
      let toks :=
        if opts.analyzeAllArrayElements then inferTypeList visited opts xs
        else inferTypeListCapped visited opts opts.maxArraySamples xs
      let uniqueTypes := dedupFirst toks
      match uniqueTypes with
      | [t] => t ++ "[]"
      | _ => "(" ++ String.intercalate " | " uniqueTypes ++ ")[]"
  | .jobj oid fields =>
    if oid ∈ visited then "any /* 循環参照 */"
    else
      let properties := inferTypeProps visited opts fields
      match properties with
      | [] => "Record<string, never>"
      | _ => "\x7b " ++ String.intercalate "; " properties ++ " \x7d"

/-- `samplesToAnalyze.forEach` over a whole array. -/
def inferTypeList (visited : List Nat) (opts : TypeGenerationOptions) : List JVal → List String
  | [] => []
  | x :: xs => inferType visited opts x :: inferTypeList visited opts xs

/-- `value.slice(0, maxArraySamples).forEach`: analyze at most `n` elements. -/
def inferTypeListCapped (visited : List Nat) (opts : TypeGenerationOptions) :
    Nat → List JVal → List String
  | 0, _ => []
  | _ + 1, [] => []
  | n + 1, x :: xs => inferType visited opts x :: inferTypeListCapped visited opts n xs

/-- `Object.entries(value).map(([key, val]) => ...)` in the object branch of inferType. -/
def inferTypeProps (visited : List Nat) (opts : TypeGenerationOptions) :
    List (String × JVal) → List String
  | [] => []
  | kv :: rest =>
    (safeKey kv.1 ++ ": " ++ inferType visited opts kv.2) :: inferTypeProps visited opts rest
end

/-- `getPropertyComment` of typeGenerator.ts. -/
def getPropertyComment (key : String) (value : JVal) : String :=
  match value with
  | .jarr xs => key ++ " の配列 (" ++ toString xs.length ++ "件)"
  | .jobj _ _ => key ++ " オブジェクト"
  | _ => key

/-- `generateType` of typeGenerator.ts.  It is not self-recursive: nested values are
classified through `inferType`.  It mutates `visitedObjects` (adding the top-level
object before mapping over its entries), so it returns the updated set. -/
def generateType (visited : List Nat) (value : JVal) (typeName : String) (indent : Nat)
    (opts : TypeGenerationOptions) : String × List Nat :=
  match value with
  | .jnull => ("null", visited)
  | .jundef => ("undefined", visited)
  | _ =>
    let indentStr := spaces (opts.indentSize * indent)
    let nextIndent := spaces (opts.indentSize * (indent + 1))
    match value with
    | .jobj oid fields =>
      if oid ∈ visited then ("any /* 循環参照を検出 */", visited)
      else
        let visited1 := visited ++ [oid]
        let properties := fields.map (fun kv =>
          let propType := inferType visited1 opts kv.2
          let readonlyStr := if opts.readonly then "readonly " else ""
          let comment :=
            if opts.generateComments then
              "\n" ++ nextIndent ++ "/** " ++ getPropertyComment kv.1 kv.2 ++ " */"
            else ""
          comment ++ "\n" ++ nextIndent ++ readonlyStr ++ safeKey kv.1 ++ ": " ++ propType ++ ";")
        if indent = 0 then
          let interfaceBody := String.join properties
          let comment :=
            if opts.generateComments then "/**\n * " ++ typeName ++ " の型定義\n */\n" else ""
          (comment ++ "interface " ++ typeName ++ " \x7b" ++ interfaceBody ++ "\n\x7d", visited1)
        else
          ("\x7b" ++ String.join properties ++ "\n" ++ indentStr ++ "\x7d", visited1)
    | .jarr xs =>
      match xs with
      | [] => ("any[]", visited)
      | _ :: _ =>
        let toks :=
          if opts.analyzeAllArrayElements then inferTypeList visited opts xs
          else inferTypeListCapped visited opts opts.maxArraySamples xs
        let uniqueTypes := dedupFirst toks
        match uniqueTypes with
        | [t] => (t ++ "[]", visited)
        | _ => ("(" ++ String.intercalate " | " uniqueTypes ++ ")[]", visited)
    | .jbool _ => ("boolean", visited)
    | .jnum _ => ("number", visited)
    | .jstr _ => ("string", visited)
    | .jnull => ("null", visited)
    | .jundef => ("undefined", visited)

/-- `generateTypeFromJson` of typeGenerator.ts.  `st` is the module-level
`visitedObjects` set before the call; the function resets it to a fresh empty set
(`visitedObjects = new WeakSet()`) before classifying, and the state left in the
module afterwards is returned alongside the text. -/
def generateTypeFromJson (st : List Nat) (json : JVal) (typeName : String)
    (opts : TypeGenerationOptions) : String × List Nat :=
  let freshState : List Nat := []
  let result := generateType freshState json typeName 0 opts
  match json with
  | .jobj _ _ => result
  | _ => ("type " ++ typeName ++ " = " ++ result.1 ++ ";", result.2)

/-- `propertyMap.get(key)!.push(value)` preceded by `propertyMap.set(key, [])` when
absent: append `v` to the entry for `k`, creating the entry at the back if new
(the JS `Map` iterates in insertion order, so it is an ordered association list). -/
def pushProp : List (String × List JVal) → String → JVal → List (String × List JVal)
  | [], k, v => [(k, [v])]
  | kv :: rest, k, v =>
    if kv.1 = k then (kv.1, kv.2 ++ [v]) :: rest
    else kv :: pushProp rest k v

/-- Fold one object-shaped sample's entries into the property map. -/
def collectSampleProps (m : List (String × List JVal)) (sample : JVal) :
    List (String × List JVal) :=
  match sample with
  | .jobj _ fields => fields.foldl (fun acc kv => pushProp acc kv.1 kv.2) m
  | _ => m

/-- The `propertyMap : Map<string, any[]>` built by generateTypeFromSamples:
only object-shaped, non-null, non-array samples contribute entries, in
first-observation (insertion) order. -/
def collectProps (samples : List JVal) : List (String × List JVal) :=
  samples.foldl collectSampleProps []

/-- Is the value `null`? -/
def JVal.isNullV : JVal → Bool
  | .jnull => true
  | _ => false

/-- Is the value `undefined`? -/
def JVal.isUndefV : JVal → Bool
  | .jundef => true
  | _ => false

/-- One property line pushed by the `propertyMap.forEach` loop of
generateTypeFromSamples. -/
def renderProperty (visited : List Nat) (opts : TypeGenerationOptions)
    (totalSamples : Nat) (indentStr : String) (kv : String × List JVal) : String :=
  let values := kv.2
  let hasNull := values.any JVal.isNullV
  let hasUndefined := decide (values.length < totalSamples)
  let types :=
    dedupFirst ((values.filter (fun v => !v.isNullV && !v.isUndefV)).map
      (inferType visited opts))
  let joined := String.intercalate " | " types
  let typeStr0 := if joined = "" then "any" else joined
  let typeStr :=
    if hasNull && !(typeStr0 == "any") then typeStr0 ++ " | null" else typeStr0
  let optional := if hasUndefined then "?" else ""
  let readonlyStr := if opts.readonly then "readonly " else ""
  let sk := safeKey kv.1
  let comment :=
    if opts.generateComments then
      "\n" ++ indentStr ++ "/** 出現回数: " ++ toString values.length ++ "/" ++
        toString totalSamples ++ " */"
    else ""
  comment ++ "\n" ++ indentStr ++ readonlyStr ++ sk ++ optional ++ ": " ++ typeStr ++ ";"

/-- `generateTypeFromSamples` of typeGenerator.ts.  `visited` is the module-level
`visitedObjects` set at call time: this function never resets nor extends it, it is
only read by the `inferType` calls. -/
def generateTypeFromSamples (visited : List Nat) (samples : List JVal)
    (typeName : String) (opts : TypeGenerationOptions) : String :=
  match samples with
  | [] => "interface " ++ typeName ++ " \x7b\n  [key: string]: any;\n\x7d"
  | _ :: _ =>
    let propertyMap := collectProps samples
    let totalSamples := samples.length
    let indentStr := spaces opts.indentSize
    let properties := propertyMap.map (renderProperty visited opts totalSamples indentStr)
    let interfaceBody := String.join properties
    let comment :=
      if opts.generateComments then
        "/**\n * " ++ typeName ++ " の型定義\n * " ++ toString totalSamples ++
          "件のサンプルから生成\n */\n"
      else ""
    comment ++ "interface " ++ typeName ++ " \x7b" ++ interfaceBody ++ "\n\x7d"

/-- The aggregation guard of generateTypeFromSamples:
`typeof sample === 'object' && sample !== null && !Array.isArray(sample)`. -/
def isObjectSample : JVal → Bool
  | .jobj _ _ => true
  | _ => false

/-- The field names of an object-shaped sample, in source order. -/
def sampleKeys : JVal → List String
  | .jobj _ fields => fields.map Prod.fst
  | _ => []

/-- Specification-side description of field order: all keys of all object-shaped
samples in arrival order, deduplicated keeping first occurrences. -/
def firstObservedKeys (samples : List JVal) : List String :=
  (samples.flatMap sampleKeys).foldl addUnique []

/-- JS `\s`-ish whitespace (ASCII part; the source strings are route names). -/
def isJsSpace (c : Char) : Bool :=
  c = ' ' || c = '\t' || c = '\n' || c = '\r' || c.toNat = 11 || c.toNat = 12

/-- The separator class of generateTypeName's first split:
`[\/\-_\s\(\)\x7b\x7d\[\]]`. -/
def isRouteSepChar (c : Char) : Bool :=
  c = '/' || c = '-' || c = '_' || isJsSpace c || c = '(' || c = ')' ||
  c.toNat = 123 || c.toNat = 125 || c = '[' || c = ']'

/-- Maximal runs of non-separator characters: the result of
`split(/[...]+/).filter(s => s.length > 0)`. -/
def chunksBySep : List Char → List (List Char)
  | [] => []
  | c :: cs =>
    if isRouteSepChar c then chunksBySep cs
    else
      let rest := chunksBySep cs
      match cs with
      | [] => [[c]]
      | d :: _ =>
        if isRouteSepChar d then [c] :: rest
        else
          match rest with
          | [] => [[c]]
          | chunk :: more => (c :: chunk) :: more

/-- `segment.split(/[\-_]/)`: split at every dash or underscore, keeping empties. -/
def innerSplit : List Char → List (List Char)
  | [] => [[]]
  | c :: cs =>
    if c = '-' || c = '_' then [] :: innerSplit cs
    else
      match innerSplit cs with
      | [] => [[c]]
      | w :: ws => (c :: w) :: ws

/-- `word.charAt(0).toUpperCase() + word.slice(1).toLowerCase()` (ASCII case maps). -/
def pascalWord : List Char → List Char
  | [] => []
  | c :: rest => c.toUpper :: rest.map Char.toLower

/-- `segment.replace(/^(Api|Endpoint|Route)$/i, '')`: erase the segment when it is
one of the three words, case-insensitively. -/
def stripApiWord (seg : String) : String :=
  let lower := String.mk (seg.data.map Char.toLower)
  if lower = "api" || lower = "endpoint" || lower = "route" then "" else seg

/-- Does the string start with a decimal digit (`/^\d/`)? -/
def startsWithDigit (s : String) : Bool :=
  match s.data with
  | [] => false
  | c :: _ => c.isDigit

/-- The tail of generateTypeName: the fallback when no usable segment remains,
the `Response` suffix, and the `T` prefix for a digit-leading name. -/
def typeNameFromCleaned (cleaned : List String) : String :=
  if cleaned.isEmpty then "ApiResponse"
  else
    let typeName := String.join cleaned ++ "Response"
    if startsWithDigit typeName then "T" ++ typeName else typeName

/-- `generateTypeName` of typeGenerator.ts. -/
def generateTypeName (routeName : String) : String :=
  let segments := (chunksBySep routeName.data).map
    (fun seg => String.mk ((innerSplit seg).map pascalWord).flatten)
  let cleaned := (segments.map stripApiWord).filter (fun s => s.length > 0)
  typeNameFromCleaned cleaned

/-! ## Background pipeline (src/unnamed/part_000): bucketing, signature, skip logic -/

/-- The `StatusBucket` union type of part_000. -/
inductive StatusBucket where
  | SUCCESS_2XX
  | REDIRECT_3XX
  | CLIENT_ERROR_4XX
  | SERVER_ERROR_5XX
  | OTHER
deriving DecidableEq, Repr

/-- `getStatusBucket` of part_000.  A missing status code, or a zero one, is falsy
(`!statusCode`); status codes are HTTP integers, modelled as `Int`. -/
def getStatusBucket (statusCode : Option Int) : StatusBucket :=
  match statusCode with
  | none => .OTHER
  | some n =>
    if n = 0 ∨ n < 100 then .OTHER
    else if 200 ≤ n ∧ n < 300 then .SUCCESS_2XX
    else if 300 ≤ n ∧ n < 400 then .REDIRECT_3XX
    else if 400 ≤ n ∧ n < 500 then .CLIENT_ERROR_4XX
    else if 500 ≤ n ∧ n < 600 then .SERVER_ERROR_5XX
    else .OTHER

/-- `(req.statusCode ?? 0) >= 400`, the error flag computed in buildGroupedSamples. -/
def isErrorStatus (statusCode : Option Int) : Bool :=
  decide (statusCode.getD 0 ≥ 400)

/-- `statusBucketSuffix` of part_000. -/
def statusBucketSuffix : StatusBucket → String
  | .SUCCESS_2XX => "Success2xx"
  | .REDIRECT_3XX => "Redirect3xx"
  | .CLIENT_ERROR_4XX => "ClientError4xx"
  | .SERVER_ERROR_5XX => "ServerError5xx"
  | .OTHER => "OtherStatus"

/-- `STATUS_BUCKET_ORDER.indexOf` for the fixed order
`[SUCCESS_2XX, REDIRECT_3XX, CLIENT_ERROR_4XX, SERVER_ERROR_5XX, OTHER]`. -/
def statusBucketOrder : StatusBucket → Nat
  | .SUCCESS_2XX => 0
  | .REDIRECT_3XX => 1
  | .CLIENT_ERROR_4XX => 2
  | .SERVER_ERROR_5XX => 3
  | .OTHER => 4

/-- The `BucketGroup` record of part_000. -/
structure BucketGroup where
  bucket : StatusBucket
  isError : Bool
  samples : List JVal
  count : Nat

/-- The fields of `RecordedRequest` used by the type-update pipeline. -/
structure RecordedRequest where
  routeId : String
  response : Option JVal
  statusCode : Option Int

/-- The fields of `ApiRoute` used by the type-update pipeline. -/
structure ApiRoute where
  id : String
  name : String

/-- The `GeneratedType` record of src/types/index.ts. -/
structure GeneratedType where
  routeId : String
  routeName : String
  typeName : String
  typeDefinition : String
  sampleCount : Nat
  lastUpdated : Nat
  signature : Option String

/-- `orderedInsert` for a Boolean comparator: insert before the first element that
compares greater-or-equal fails... i.e. `a` goes before `b` when `le a b`. -/
def orderedInsertB (le : α → α → Bool) (a : α) : List α → List α
  | [] => [a]
  | b :: l => if le a b then a :: b :: l else b :: orderedInsertB le a l

/-- A stable sort with a Boolean `le` comparator.  This models JavaScript
`Array.prototype.sort` with a consistent comparator (JS sort is stable, and every
stable sort produces the same output). -/
def insertionSortB (le : α → α → Bool) : List α → List α
  | [] => []
  | a :: l => orderedInsertB le a (insertionSortB le l)

/-- The comparator of `sortGroupsForStableOutput`: the JS compare function returns
`orderA - orderB` when the bucket positions differ, else
`Number(a.isError) - Number(b.isError)`; `le a b` models "compare result ≤ 0". -/
def groupLe (a b : BucketGroup) : Bool :=
  if statusBucketOrder a.bucket = statusBucketOrder b.bucket then
    decide (a.isError.toNat ≤ b.isError.toNat)
  else decide (statusBucketOrder a.bucket < statusBucketOrder b.bucket)

/-- `sortGroupsForStableOutput` of part_000. -/
def sortGroupsForStableOutput (groups : List BucketGroup) : List BucketGroup :=
  insertionSortB groupLe groups

/-- One step of the `routeRequests.forEach` grouping loop of buildGroupedSamples:
the Map key `bucket + ":" + (isError ? "error" : "normal")` distinguishes exactly the
pair (bucket, isError), so the key is modelled by that pair. -/
def addToGroup (acc : List BucketGroup) (req : RecordedRequest) : List BucketGroup :=
  let bucket := getStatusBucket req.statusCode
  let isError := isErrorStatus req.statusCode
  if acc.any (fun g => g.bucket == bucket && g.isError == isError) then
    acc.map (fun g =>
      if g.bucket == bucket && g.isError == isError then
        { g with samples := g.samples ++ [req.response.getD .jundef], count := g.count + 1 }
      else g)
  else
    acc ++ [{ bucket := bucket, isError := isError,
              samples := [req.response.getD .jundef], count := 1 }]

/-- `buildGroupedSamples` of part_000 (an absent `response` is the JS `undefined`
value, modelled as `JVal.jundef`; in the pipeline requests are pre-filtered to
truthy responses). -/
def buildGroupedSamples (routeRequests : List RecordedRequest) : List BucketGroup :=
  sortGroupsForStableOutput (routeRequests.foldl addToGroup [])

/-- Lowercase hexadecimal digit. -/
def hexDigitChar (n : Nat) : Char :=
  if n < 10 then Char.ofNat (48 + n) else Char.ofNat (87 + n)

/-- The 8 hexadecimal nibbles of a 32-bit value, most significant first. -/
def hexNibbles (n : Nat) : List Nat :=
  (List.range 8).map (fun i => n / 16 ^ (7 - i) % 16)

/-- `(n).toString(16)` for a 32-bit value `n` (every use site is one): the 8-nibble
expansion with leading zeros trimmed — exactly the base-16 positional numeral. -/
def natToHex (n : Nat) : String :=
  let trimmed := (hexNibbles n).dropWhile (fun d => d = 0)
  match trimmed with
  | [] => "0"
  | _ :: _ => String.mk (trimmed.map hexDigitChar)

/-- `.padStart(w, '0')`. -/
def padStartZeros (w : Nat) (s : String) : String :=
  if s.length < w then String.mk (List.replicate (w - s.length) '0') ++ s else s

/-- UTF-16 code units of a character, as `charCodeAt` enumerates them. -/
def utf16Units (c : Char) : List Nat :=
  if c.toNat < 65536 then [c.toNat]
  else [55296 + (c.toNat - 65536) / 1024, 56320 + (c.toNat - 65536) % 1024]

/-- One step of the FNV-1a loop: `hash ^= code; hash = Math.imul(hash, 0x01000193)`,
on 32-bit values (so modulo 2^32). -/
def fnv1aStep (h : Nat) (code : Nat) : Nat :=
  (Nat.xor h code) * 16777619 % 4294967296

/-- The 32-bit accumulator of `fnv1aHash` over the string's UTF-16 code units,
seeded with 0x811c9dc5. -/
def fnv1aAcc (input : String) : Nat :=
  (input.data.flatMap utf16Units).foldl fnv1aStep 2166136261

/-- `fnv1aHash` of part_000: `(hash >>> 0).toString(16).padStart(8, '0')`. -/
def fnv1aHash (input : String) : String :=
  padStartZeros 8 (natToHex (fnv1aAcc input))

/-- `JSON.stringify` escaping of one character. -/
def jsonEscapeChar (c : Char) : String :=
  if c = '"' then "\\\""
  else if c = '\\' then "\\\\"
  else if c = '\n' then "\\n"
  else if c = '\r' then "\\r"
  else if c = '\t' then "\\t"
  else if c.toNat = 8 then "\\b"
  else if c.toNat = 12 then "\\f"
  else if c.toNat < 32 then "\\u" ++ padStartZeros 4 (natToHex c.toNat)
  else String.singleton c

/-- `JSON.stringify` of a string. -/
def jsonQuote (s : String) : String :=
  "\"" ++ String.join (s.data.map jsonEscapeChar) ++ "\""

/-- Lexicographic comparison of character lists by code point. -/
def charListLe : List Char → List Char → Bool
  | [], _ => true
  | _ :: _, [] => false
  | c :: cs, d :: ds =>
    if c.toNat = d.toNat then charListLe cs ds else decide (c.toNat < d.toNat)

/-- `a.localeCompare(b) <= 0`, modelled as code-point lexicographic order. -/
def strLe (a b : String) : Bool :=
  charListLe a.data b.data

/-- Key order for stableSerialize's entry sort. -/
def pairLe (a b : String × String) : Bool :=
  strLe a.1 b.1

mutual
/-- `stableSerialize` of part_000: recursively serialize, object keys sorted.  The
source sorts the entries and then serializes each value; serialization of an entry
is pure and independent of its position, so sorting the (key, rendered value) pairs
by key — as here, which makes the recursion structural — is the same function.
`JSON.stringify(undefined)` interpolated into the surrounding template renders as
`undefined` (parsed JSON samples never contain it). -/
def stableSerialize : JVal → String
  | .jnull => "null"
  | .jundef => "undefined"
  | .jbool b => if b then "true" else "false"
  | .jnum n => toString n
  | .jstr s => jsonQuote s
  | .jarr xs => "[" ++ String.intercalate "," (stableSerializeList xs) ++ "]"
  | .jobj _ fields =>
    let rendered := stableSerializeEntries fields
    let sorted := insertionSortB pairLe rendered
    "\x7b" ++ String.intercalate "," (sorted.map (fun kv => jsonQuote kv.1 ++ ":" ++ kv.2)) ++
      "\x7d"

/-- Serialize the elements of an array, in original order. -/
def stableSerializeList : List JVal → List String
  | [] => []
  | x :: xs => stableSerialize x :: stableSerializeList xs

/-- Serialize the values of an object's entries, keeping the keys. -/
def stableSerializeEntries : List (String × JVal) → List (String × String)
  | [] => []
  | kv :: rest => (kv.1, stableSerialize kv.2) :: stableSerializeEntries rest
end

/-- The TypeScript string value of a `StatusBucket` constant. -/
def statusBucketName : StatusBucket → String
  | .SUCCESS_2XX => "SUCCESS_2XX"
  | .REDIRECT_3XX => "REDIRECT_3XX"
  | .CLIENT_ERROR_4XX => "CLIENT_ERROR_4XX"
  | .SERVER_ERROR_5XX => "SERVER_ERROR_5XX"
  | .OTHER => "OTHER"

/-- The object literal `\x7b bucket, isError, count, samples \x7d` built in
buildRouteTypeSignature's `normalized` mapping, as a JS value (`oid` irrelevant:
stableSerialize ignores identity). -/
def groupToJVal (g : BucketGroup) : JVal :=
  .jobj 0 [("bucket", .jstr (statusBucketName g.bucket)),
    ("isError", .jbool g.isError),
    ("count", .jnum (Int.ofNat g.count)),
    ("samples", .jarr g.samples)]

/-- `buildRouteTypeSignature` of part_000. -/
def buildRouteTypeSignature (routeId : String) (groups : List BucketGroup) : String :=
  let normalized := sortGroupsForStableOutput groups
  fnv1aHash (stableSerialize (.jobj 0
    [("routeId", .jstr routeId), ("normalized", .jarr (normalized.map groupToJVal))]))

/-- `s.endsWith(suffix)`, computed over the character lists. -/
def jsEndsWith (s suffix : String) : Bool :=
  s.data.drop (s.data.length - suffix.data.length) == suffix.data

/-- `s.slice(0, -n)`: drop the last `n` characters. -/
def jsDropRight (s : String) (n : Nat) : String :=
  String.mk (s.data.take (s.data.length - n))

/-- `toTypeBaseName` of part_000. -/
def toTypeBaseName (routeName : String) : String :=
  let typeName := generateTypeName routeName
  if jsEndsWith typeName "Response" then jsDropRight typeName 8 else typeName

/-- JavaScript truthiness of a JSON value. -/
def jsTruthy : JVal → Bool
  | .jnull => false
  | .jundef => false
  | .jbool b => b
  | .jnum n => decide (n ≠ 0)
  | .jstr s => decide (s ≠ "")
  | .jarr _ => true
  | .jobj _ _ => true

/-- The request window of updateTypeDefinition:
`allRequests.filter(req => req.routeId === route.id && req.response).slice(-10)`. -/
def windowOf (route : ApiRoute) (allRequests : List RecordedRequest) :
    List RecordedRequest :=
  let filtered := allRequests.filter (fun req =>
    req.routeId == route.id && (req.response.map jsTruthy).getD false)
  filtered.drop (filtered.length - 10)

/-- `updateTypeDefinition` of part_000, with the externally-provided pieces passed
in: `fmt` models the `formatCode` collaborator (utils/format is outside the core),
`now` models `Date.now()`, and `visited` is typeGenerator's module-level
`visitedObjects` set read by the `generateTypeFromSamples` calls.  Returns the
changed flag and the updated `state.types` list. -/
def updateTypeDefinition (fmt : String → String) (now : Nat) (visited : List Nat)
    (route : ApiRoute) (allRequests : List RecordedRequest)
    (types : List GeneratedType) : Bool × List GeneratedType :=
  let routeRequests := windowOf route allRequests
  match routeRequests with
  | [] => (false, types)
  | _ :: _ =>
    let groups := buildGroupedSamples routeRequests
    match groups with
    | [] => (false, types)
    | _ :: _ =>
      let signature := buildRouteTypeSignature route.id groups
      let existingType := types.find? (fun item => item.routeId == route.id)
      if (existingType.bind (fun t => t.signature)) == some signature then
        (false, types)
      else
        let baseName := toTypeBaseName route.name
        let groupedDefinitions := groups.map (fun group =>
          let suffix := statusBucketSuffix group.bucket
          let typeName :=
            if group.isError then baseName ++ suffix ++ "ErrorResponse"
            else baseName ++ suffix ++ "Response"
          generateTypeFromSamples visited group.samples typeName
            { analyzeAllArrayElements := true })
        let generated : GeneratedType :=
          { routeId := route.id
            routeName := route.name
            typeName := baseName ++ "Response"
            typeDefinition := fmt (String.intercalate "\n\n" groupedDefinitions)
            sampleCount := routeRequests.length
            lastUpdated := now
            signature := some signature }
        match types.findIdx? (fun item => item.routeId == route.id) with
        | some i => (true, types.set i generated)
        | none => (true, types ++ [generated])

/-! ## A heap model for self-referential samples (claim about cycle safety)

`JVal` is an inductive tree, so it cannot represent a JavaScript object that
contains a reference back to itself.  `HVal`/`Heap` model general object graphs:
every object lives in the heap at its `oid`, and occurrences of an object are
references `href oid`.  The recursion of `inferType` is re-expressed with explicit
fuel: one unit is consumed per recursive call, and `none` means the computation is
still running after that many calls — so an input on which the result is `none`
for every fuel is an input on which the JavaScript recursion never returns. -/

/-- A JavaScript value in the heap model: objects are references into a heap. -/
inductive HVal where
  | hnull
  | hundef
  | hbool (b : Bool)
  | hnum (n : Int)
  | hstr (s : String)
  | harr (xs : List HVal)
  | href (oid : Nat)

/-- A heap: the fields of the object with identity `oid` are `heap.getD oid []`
(every reference produced by JavaScript points at a live object). -/
def Heap := List (List (String × HVal))

/-- `inferType` on the heap model, fuelled.  Mirrors `inferType` of
typeGenerator.ts exactly: the visited set is read (`visitedObjects.has`) but never
extended — `inferType` contains no `visitedObjects.add`. -/
def inferTypeH (heap : Heap) (opts : TypeGenerationOptions) :
    Nat → List Nat → HVal → Option String
  | 0, _, _ => none
  | _ + 1, _, .hnull => some "null"
  | _ + 1, _, .hundef => some "undefined"
  | _ + 1, _, .hbool _ => some "boolean"
  | _ + 1, _, .hnum _ => some "number"
  | _ + 1, _, .hstr s =>
    some (if opts.detectDates && isDateString s then "string /* ISO Date */" else "string")
  | fuel + 1, visited, .harr xs =>
    match xs with
    | [] => some "any[]"
    | _ :: _ => do
      let samplesToAnalyze :=
        if opts.analyzeAllArrayElements then xs else xs.take opts.maxArraySamples
      let toks ← samplesToAnalyze.mapM (inferTypeH heap opts fuel visited)
      let uniqueTypes := dedupFirst toks
      match uniqueTypes with
      | [t] => some (t ++ "[]")
      | _ => some ("(" ++ String.intercalate " | " uniqueTypes ++ ")[]")
  | fuel + 1, visited, .href oid =>
    if oid ∈ visited then some "any /* 循環参照 */"
    else do
      let fields := heap.getD oid []
      let properties ← fields.mapM (fun kv => do
        let propType ← inferTypeH heap opts fuel visited kv.2
        pure (safeKey kv.1 ++ ": " ++ propType))
      match properties with
      | [] => some "Record<string, never>"
      | _ => some ("\x7b " ++ String.intercalate "; " properties ++ " \x7d")

/-- Is a heap value an object-shaped, non-null, non-array sample? -/
def isObjectSampleH : HVal → Bool
  | .href _ => true
  | _ => false

/-- The property map of `generateTypeFromSamples` on the heap model. -/
def collectPropsH (heap : Heap) (samples : List HVal) : List (String × List HVal) :=
  samples.foldl (fun m sample =>
    match sample with
    | .href oid => (heap.getD oid []).foldl (fun acc kv =>
        if acc.any (fun e => e.1 == kv.1) then
          acc.map (fun e => if e.1 == kv.1 then (e.1, e.2 ++ [kv.2]) else e)
        else acc ++ [(kv.1, [kv.2])])
      m
    | _ => m) []

/-- Is the heap value `null`? -/
def HVal.isNullV : HVal → Bool
  | .hnull => true
  | _ => false

/-- Is the heap value `undefined`? -/
def HVal.isUndefV : HVal → Bool
  | .hundef => true
  | _ => false

/-- One property line of `generateTypeFromSamples` on the heap model, fuelled
through the `inferType` calls. -/
def renderPropertyH (heap : Heap) (opts : TypeGenerationOptions) (fuel : Nat)
    (visited : List Nat) (totalSamples : Nat) (indentStr : String)
    (kv : String × List HVal) : Option String := do
  let values := kv.2
  let hasNull := values.any HVal.isNullV
  let hasUndefined := decide (values.length < totalSamples)
  let typesList ← (values.filter (fun v => !v.isNullV && !v.isUndefV)).mapM
    (inferTypeH heap opts fuel visited)
  let types := dedupFirst typesList
  let joined := String.intercalate " | " types
  let typeStr0 := if joined = "" then "any" else joined
  let typeStr :=
    if hasNull && !(typeStr0 == "any") then typeStr0 ++ " | null" else typeStr0
  let optional := if hasUndefined then "?" else ""
  let readonlyStr := if opts.readonly then "readonly " else ""
  let sk := safeKey kv.1
  pure ("\n" ++ indentStr ++ readonlyStr ++ sk ++ optional ++ ": " ++ typeStr ++ ";")

/-- `generateTypeFromSamples` on the heap model, fuelled (comment generation
elided: the pipeline never enables it). -/
def generateTypeFromSamplesH (heap : Heap) (fuel : Nat) (visited : List Nat)
    (samples : List HVal) (typeName : String) (opts : TypeGenerationOptions) :
    Option String :=
  match samples with
  | [] => some ("interface " ++ typeName ++ " \x7b\n  [key: string]: any;\n\x7d")
  | _ :: _ => do
    let propertyMap := collectPropsH heap samples
    let totalSamples := samples.length
    let indentStr := spaces opts.indentSize
    let properties ← propertyMap.mapM
      (renderPropertyH heap opts fuel visited totalSamples indentStr)
    pure ("interface " ++ typeName ++ " \x7b" ++ String.join properties ++ "\n\x7d")

/-- The heap holding the self-referential sample `s = \x7b "self": s \x7d`. -/
def cyclicHeap : Heap := [[("self", .href 0)]]

/-! ## Equality up to mapping-key insertion order -/

mutual
/-- Two JS values are equal up to mapping key insertion order: identical leaves,
arrays equal elementwise, and objects carrying the same entries (keys unique, as
in any JS object) possibly in different insertion order, with values related
recursively. -/
inductive KeyPerm : JVal → JVal → Prop where
  | jnull : KeyPerm .jnull .jnull
  | jundef : KeyPerm .jundef .jundef
  | jbool (b : Bool) : KeyPerm (.jbool b) (.jbool b)
  | jnum (n : Int) : KeyPerm (.jnum n) (.jnum n)
  | jstr (s : String) : KeyPerm (.jstr s) (.jstr s)
  | jarr {xs ys : List JVal} : KeyPermList xs ys → KeyPerm (.jarr xs) (.jarr ys)
  | jobj (i j : Nat) {fs gs hs : List (String × JVal)}
      (hnd : (fs.map Prod.fst).Nodup)
      (hvals : KeyPermFields fs gs) (hperm : gs.Perm hs) :
      KeyPerm (.jobj i fs) (.jobj j hs)

/-- Elementwise `KeyPerm` on lists. -/
inductive KeyPermList : List JVal → List JVal → Prop where
  | nil : KeyPermList [] []
  | cons {x y : JVal} {xs ys : List JVal} :
      KeyPerm x y → KeyPermList xs ys → KeyPermList (x :: xs) (y :: ys)

/-- Pointwise `KeyPerm` on entry lists: same keys in the same positions, values
related. -/
inductive KeyPermFields : List (String × JVal) → List (String × JVal) → Prop where
  | nil : KeyPermFields [] []
  | cons {k : String} {v w : JVal} {fs gs : List (String × JVal)} :
      KeyPerm v w → KeyPermFields fs gs → KeyPermFields ((k, v) :: fs) ((k, w) :: gs)
end

/-- Bucketed group data equal up to mapping key insertion order: same buckets,
flags and counts, samples related by `KeyPerm` pairwise. -/
def GroupsKeyPerm (gs hs : List BucketGroup) : Prop :=
  List.Forall₂ (fun g h =>
    g.bucket = h.bucket ∧ g.isError = h.isError ∧ g.count = h.count ∧
      List.Forall₂ KeyPerm g.samples h.samples) gs hs

/-- On the self-referential object, `inferType` starting from an empty visited set
is still running after any number of calls: it checks `visitedObjects.has` but
nothing on this path ever adds to the set, so the guard can never fire. -/
lemma inferTypeH_cyclic_none (fuel : Nat) :
    inferTypeH cyclicHeap DEFAULT_OPTIONS fuel [] (.href 0) = none := by
  induction fuel with
  | zero => rfl
  | succ n ih =>
    have h : inferTypeH [[("self", .href 0)]] DEFAULT_OPTIONS n [] (.href 0) = none := ih
    simp only [inferTypeH, List.mem_nil_iff, if_false]
    simp [cyclicHeap, List.getD, List.mapM.loop, h]

/-- The samples-level computation also never returns on the cyclic sample. -/
lemma generateTypeFromSamplesH_cyclic_none (fuel : Nat) :
    generateTypeFromSamplesH cyclicHeap fuel [] [.href 0] "CycleResponse"
      DEFAULT_OPTIONS = none := by
  have h := inferTypeH_cyclic_none fuel
  simp only [cyclicHeap] at h
  simp [generateTypeFromSamplesH, collectPropsH, cyclicHeap, List.getD,
    renderPropertyH, HVal.isNullV, HVal.isUndefV, List.mapM.loop, h]

/-! ## The property map iterates in first-observation order -/

lemma mem_addUnique [DecidableEq α] {a k : α} {ks : List α} :
    a ∈ addUnique ks k ↔ a ∈ ks ∨ a = k := by
  by_cases h : k ∈ ks
  · simp only [addUnique, if_pos h]
    constructor
    · exact fun hm => Or.inl hm
    · rintro (hm | rfl) <;> assumption
  · simp [addUnique, if_neg h]

lemma addUnique_nodup [DecidableEq α] {k : α} {ks : List α} (h : ks.Nodup) :
    (addUnique ks k).Nodup := by
  by_cases hm : k ∈ ks
  · simpa [addUnique, if_pos hm] using h
  · simp [addUnique, if_neg hm, List.nodup_append, h, hm]

lemma mem_foldl_addUnique [DecidableEq α] {a : α} (l : List α) :
    ∀ ks : List α, a ∈ l.foldl addUnique ks ↔ a ∈ ks ∨ a ∈ l := by
  induction l with
  | nil => intro ks; simp
  | cons x l ih =>
    intro ks
    rw [List.foldl_cons, ih, mem_addUnique]
    simp only [List.mem_cons]
    tauto

lemma foldl_addUnique_nodup [DecidableEq α] (l : List α) :
    ∀ ks : List α, ks.Nodup → (l.foldl addUnique ks).Nodup := by
  induction l with
  | nil => intro ks h; exact h
  | cons x l ih => intro ks h; exact ih _ (addUnique_nodup h)

lemma pushProp_keys (m : List (String × List JVal)) (k : String) (v : JVal) :
    (pushProp m k v).map Prod.fst = addUnique (m.map Prod.fst) k := by
  induction m with
  | nil => simp [pushProp, addUnique]
  | cons kv rest ih =>
    by_cases h : kv.1 = k
    · subst h
      simp [pushProp, addUnique]
    · by_cases hm : k ∈ rest.map Prod.fst
      · simp [pushProp, h, addUnique, hm, ih, Ne.symm h]
      · simp [pushProp, h, addUnique, hm, ih, Ne.symm h]

lemma fieldsFold_keys (fs : List (String × JVal)) :
    ∀ m : List (String × List JVal),
      ((fs.foldl (fun acc kv => pushProp acc kv.1 kv.2) m).map Prod.fst) =
        (fs.map Prod.fst).foldl addUnique (m.map Prod.fst) := by
  induction fs with
  | nil => intro m; rfl
  | cons kv fs ih =>
    intro m
    simp only [List.foldl_cons, List.map_cons]
    rw [ih, pushProp_keys]

lemma collectFold_keys (l : List JVal) :
    ∀ m : List (String × List JVal),
      ((l.foldl collectSampleProps m).map Prod.fst) =
        (l.flatMap sampleKeys).foldl addUnique (m.map Prod.fst) := by
  induction l with
  | nil => intro m; rfl
  | cons s l ih =>
    intro m
    rw [List.foldl_cons, List.flatMap_cons, List.foldl_append, ih]
    congr 1
    cases s <;> simp [collectSampleProps, sampleKeys, fieldsFold_keys]

/-- The rendered field order of generateTypeFromSamples is the first-observation
order of the keys across the object-shaped samples. -/
lemma collectProps_keys (samples : List JVal) :
    (collectProps samples).map Prod.fst = firstObservedKeys samples := by
  simpa using collectFold_keys samples []

lemma firstObservedKeys_nodup (samples : List JVal) :
    (firstObservedKeys samples).Nodup :=
  foldl_addUnique_nodup _ [] List.nodup_nil

lemma mem_firstObservedKeys {a : String} {samples : List JVal} :
    a ∈ firstObservedKeys samples ↔ a ∈ samples.flatMap sampleKeys := by
  simp [firstObservedKeys, mem_foldl_addUnique]

lemma firstObservedKeys_perm {l₁ l₂ : List JVal} (h : l₁.Perm l₂) :
    (firstObservedKeys l₁).Perm (firstObservedKeys l₂) := by
  rw [List.perm_ext_iff_of_nodup (firstObservedKeys_nodup l₁) (firstObservedKeys_nodup l₂)]
  intro a
  simp only [mem_firstObservedKeys, List.mem_flatMap]
  constructor
  · rintro ⟨s, hs, hk⟩; exact ⟨s, h.mem_iff.mp hs, hk⟩
  · rintro ⟨s, hs, hk⟩; exact ⟨s, h.mem_iff.mpr hs, hk⟩

lemma collectFold_filter (l : List JVal) :
    ∀ m : List (String × List JVal),
      l.foldl collectSampleProps m = (l.filter isObjectSample).foldl collectSampleProps m := by
  induction l with
  | nil => intro m; rfl
  | cons s l ih =>
    intro m
    cases s <;> simp [isObjectSample, collectSampleProps, ih]

/-! ## The stable sort used by stableSerialize and sortGroupsForStableOutput -/

lemma charListLe_total : ∀ a b : List Char, charListLe a b = true ∨ charListLe b a = true := by
  intro a
  induction a with
  | nil => intro b; left; rfl
  | cons c cs ih =>
    intro b
    cases b with
    | nil => right; rfl
    | cons d ds =>
      by_cases h : c.toNat = d.toNat
      · simpa [charListLe, h] using ih ds
      · rcases Nat.lt_or_ge c.toNat d.toNat with hlt | hge
        · left; simp [charListLe, h, hlt]
        · right
          have hdc : d.toNat < c.toNat := by omega
          simp only [charListLe]
          rw [if_neg (by omega : ¬ d.toNat = c.toNat)]
          exact decide_eq_true hdc

lemma charListLe_trans : ∀ a b c : List Char,
    charListLe a b = true → charListLe b c = true → charListLe a c = true := by
  intro a
  induction a with
  | nil => intro b c _ _; rfl
  | cons x xs ih =>
    intro b c hab hbc
    cases b with
    | nil => simp [charListLe] at hab
    | cons y ys =>
      cases c with
      | nil => simp [charListLe] at hbc
      | cons z zs =>
        simp only [charListLe] at hab hbc ⊢
        by_cases hxy : x.toNat = y.toNat
        · by_cases hyz : y.toNat = z.toNat
          · rw [if_pos hxy] at hab
            rw [if_pos hyz] at hbc
            rw [if_pos (hxy.trans hyz)]
            exact ih ys zs hab hbc
          · rw [if_neg hyz] at hbc
            have hlt : y.toNat < z.toNat := of_decide_eq_true hbc
            have hxz : x.toNat ≠ z.toNat := by omega
            rw [if_neg hxz]
            exact decide_eq_true (by omega)
        · rw [if_neg hxy] at hab
          have hlt : x.toNat < y.toNat := of_decide_eq_true hab
          by_cases hyz : y.toNat = z.toNat
          · have hxz : x.toNat ≠ z.toNat := by omega
            rw [if_neg hxz]
            exact decide_eq_true (by omega)
          · rw [if_neg hyz] at hbc
            have hlt2 : y.toNat < z.toNat := of_decide_eq_true hbc
            have hxz : x.toNat ≠ z.toNat := by omega
            rw [if_neg hxz]
            exact decide_eq_true (by omega)

lemma orderedInsertB_perm (le : α → α → Bool) (a : α) :
    ∀ l : List α, (orderedInsertB le a l).Perm (a :: l) := by
  intro l
  induction l with
  | nil => exact List.Perm.refl _
  | cons b l ih =>
    by_cases h : le a b
    · simp [orderedInsertB, h]
    · simp only [orderedInsertB, if_neg h]
      exact (ih.cons b).trans (List.Perm.swap a b l)

lemma insertionSortB_perm (le : α → α → Bool) :
    ∀ l : List α, (insertionSortB le l).Perm l := by
  intro l
  induction l with
  | nil => exact List.Perm.refl _
  | cons a l ih =>
    exact (orderedInsertB_perm le a (insertionSortB le l)).trans (ih.cons a)

lemma mem_orderedInsertB {le : α → α → Bool} {a x : α} {l : List α} :
    x ∈ orderedInsertB le a l ↔ x = a ∨ x ∈ l := by
  rw [(orderedInsertB_perm le a l).mem_iff, List.mem_cons]

lemma orderedInsertB_pairwise {le : α → α → Bool}
    (htot : ∀ a b, le a b = true ∨ le b a = true)
    (htrans : ∀ a b c, le a b = true → le b c = true → le a c = true) (a : α) :
    ∀ l : List α, List.Pairwise (fun x y => le x y = true) l →
      List.Pairwise (fun x y => le x y = true) (orderedInsertB le a l) := by
  intro l
  induction l with
  | nil => intro _; simp [orderedInsertB]
  | cons b l ih =>
    intro hp
    rw [List.pairwise_cons] at hp
    obtain ⟨hb, hl⟩ := hp
    by_cases h : le a b
    · rw [orderedInsertB, if_pos h, List.pairwise_cons]
      refine ⟨?_, List.pairwise_cons.mpr ⟨hb, hl⟩⟩
      intro x hx
      rcases List.mem_cons.mp hx with rfl | hx
      · exact h
      · exact htrans a b x h (hb x hx)
    · rw [orderedInsertB, if_neg h, List.pairwise_cons]
      constructor
      · intro x hx
        rcases mem_orderedInsertB.mp hx with hxa | hx
        · subst hxa
          rcases htot x b with hab | hba
          · exact absurd hab h
          · exact hba
        · exact hb x hx
      · exact ih hl

lemma charListLe_antisymm : ∀ a b : List Char,
    charListLe a b = true → charListLe b a = true → a = b := by
  intro a
  induction a with
  | nil =>
    intro b _ hba
    cases b with
    | nil => rfl
    | cons d ds => simp [charListLe] at hba
  | cons c cs ih =>
    intro b hab hba
    cases b with
    | nil => simp [charListLe] at hab
    | cons d ds =>
      by_cases h : c.toNat = d.toNat
      · have hc : c = d := Char.eq_of_val_eq (UInt32.toNat.inj h)
        have h1 : charListLe cs ds = true := by simpa [charListLe, h] using hab
        have h2 : charListLe ds cs = true := by simpa [charListLe, h] using hba
        rw [hc, ih ds h1 h2]
      · have h1 : c.toNat < d.toNat := by
          by_contra hc
          simp [charListLe, h, hc] at hab
        have hdc : ¬ d.toNat = c.toNat := by omega
        have h2 : d.toNat < c.toNat := by
          by_contra hc
          simp [charListLe, hdc, hc] at hba
        omega

lemma insertionSortB_pairwise {le : α → α → Bool}
    (htot : ∀ a b, le a b = true ∨ le b a = true)
    (htrans : ∀ a b c, le a b = true → le b c = true → le a c = true) :
    ∀ l : List α, List.Pairwise (fun x y => le x y = true) (insertionSortB le l) := by
  intro l
  induction l with
  | nil => simp [insertionSortB]
  | cons a l ih => exact orderedInsertB_pairwise htot htrans a _ ih

lemma strLe_total (a b : String) : strLe a b = true ∨ strLe b a = true :=
  charListLe_total a.data b.data

lemma strLe_trans {a b c : String} (h1 : strLe a b = true) (h2 : strLe b c = true) :
    strLe a c = true :=
  charListLe_trans a.data b.data c.data h1 h2

lemma strLe_antisymm {a b : String} (h1 : strLe a b = true) (h2 : strLe b a = true) :
    a = b :=
  String.ext (charListLe_antisymm a.data b.data h1 h2)

/-- Sorting string-keyed pairs with unique keys: any two permutations of the same
entry list sort to the same list.  This is the reason stableSerialize is invariant
under mapping-key insertion order. -/
lemma insertionSortB_pairs_eq {ps qs : List (String × String)}
    (hperm : ps.Perm qs) (hnd : (ps.map Prod.fst).Nodup) :
    insertionSortB pairLe ps = insertionSortB pairLe qs := by
  have htot : ∀ a b : String × String, pairLe a b = true ∨ pairLe b a = true :=
    fun a b => strLe_total a.1 b.1
  have htrans : ∀ a b c : String × String,
      pairLe a b = true → pairLe b c = true → pairLe a c = true :=
    fun a b c h1 h2 => strLe_trans h1 h2
  -- the strict relation: weak order plus distinct keys
  let r : (String × String) → (String × String) → Prop :=
    fun a b => pairLe a b = true ∧ a.1 ≠ b.1
  have hanti : IsAntisymm (String × String) r :=
    ⟨fun a b hab hba => absurd (strLe_antisymm hab.1 hba.1) hab.2⟩
  have hkeys : ∀ (l : List (String × String)), (l.map Prod.fst).Nodup →
      List.Pairwise r (insertionSortB pairLe l) := by
    intro l hl
    have hle := insertionSortB_pairwise htot htrans l
    have hnd2 : ((insertionSortB pairLe l).map Prod.fst).Nodup := by
      exact (((insertionSortB_perm pairLe l).map Prod.fst).nodup_iff).mpr hl
    have hne : List.Pairwise (fun a b : String × String => a.1 ≠ b.1)
        (insertionSortB pairLe l) := (List.pairwise_map).mp hnd2
    exact hle.and hne
  have hnd2 : (qs.map Prod.fst).Nodup := ((hperm.map Prod.fst).nodup_iff).mp hnd
  have hp : (insertionSortB pairLe ps).Perm (insertionSortB pairLe qs) :=
    ((insertionSortB_perm pairLe ps).trans hperm).trans
      (insertionSortB_perm pairLe qs).symm
  exact @List.eq_of_perm_of_sorted _ r hanti _ _ hp (hkeys ps hnd) (hkeys qs hnd2)

/-! ## stableSerialize is invariant under mapping-key insertion order -/

lemma stableSerializeEntries_eq_map (fs : List (String × JVal)) :
    stableSerializeEntries fs = fs.map (fun kv => (kv.1, stableSerialize kv.2)) := by
  induction fs with
  | nil => rfl
  | cons kv fs ih => simp [stableSerializeEntries, ih]

lemma stableSerializeEntries_map_fst (fs : List (String × JVal)) :
    (stableSerializeEntries fs).map Prod.fst = fs.map Prod.fst := by
  rw [stableSerializeEntries_eq_map, List.map_map]
  rfl

lemma sizeOf_lt_of_mem_jarr {x : JVal} {xs : List JVal} (h : x ∈ xs) :
    sizeOf x < sizeOf (JVal.jarr xs) := by
  have := List.sizeOf_lt_of_mem h
  simp only [JVal.jarr.sizeOf_spec]
  omega

lemma sizeOf_lt_of_mem_jobj {k : String} {v : JVal} {i : Nat}
    {fs : List (String × JVal)} (h : (k, v) ∈ fs) :
    sizeOf v < sizeOf (JVal.jobj i fs) := by
  have h1 := List.sizeOf_lt_of_mem h
  have h2 : sizeOf (k, v) = 1 + sizeOf k + sizeOf v := rfl
  simp only [JVal.jobj.sizeOf_spec]
  omega

/-- `stableSerialize` sends values equal up to mapping-key insertion order to the
same string: object keys are unique, and the serializer orders entries by key. -/
lemma stableSerialize_keyPerm :
    ∀ (n : Nat) (v w : JVal), sizeOf v ≤ n → KeyPerm v w →
      stableSerialize v = stableSerialize w := by
  intro n
  induction n with
  | zero =>
    intro v w hv _
    cases v <;> simp_all
  | succ n ih =>
    intro v w hv hk
    cases hk with
    | jnull => rfl
    | jundef => rfl
    | jbool b => rfl
    | jnum m => rfl
    | jstr s => rfl
    | jarr hl =>
      rename_i xs ys
      have haux : ∀ (as bs : List JVal), KeyPermList as bs →
          (∀ x ∈ as, sizeOf x ≤ n) → stableSerializeList as = stableSerializeList bs := by
        intro as
        induction as with
        | nil =>
          intro bs hrel _
          cases hrel
          rfl
        | cons x as1 ihas =>
          intro bs hrel hsz
          cases hrel with
          | cons hxy hrest =>
            rename_i y bs1
            have h1 : stableSerialize x = stableSerialize y :=
              ih x y (hsz x (List.mem_cons_self x as1)) hxy
            have h2 := ihas bs1 hrest (fun z hz => hsz z (List.mem_cons_of_mem _ hz))
            simp [stableSerializeList, h1, h2]
      have hsz : ∀ x ∈ xs, sizeOf x ≤ n := by
        intro x hx
        have := @sizeOf_lt_of_mem_jarr x xs hx
        omega
      simp only [stableSerialize]
      rw [haux xs ys hl hsz]
    | jobj i j hnd hvals hperm =>
      rename_i fs gs hs
      have haux : ∀ (as bs : List (String × JVal)), KeyPermFields as bs →
          (∀ kv ∈ as, sizeOf kv.2 ≤ n) →
          stableSerializeEntries as = stableSerializeEntries bs := by
        intro as
        induction as with
        | nil =>
          intro bs hrel _
          cases hrel
          rfl
        | cons kv as1 ihas =>
          intro bs hrel hsz
          cases hrel with
          | cons hvw hrest =>
            rename_i k x y bs1
            have h1 : stableSerialize x = stableSerialize y :=
              ih x y (hsz (k, x) (List.mem_cons_self (k, x) as1)) hvw
            have h2 := ihas bs1 hrest (fun z hz => hsz z (List.mem_cons_of_mem _ hz))
            simp [stableSerializeEntries, h1, h2]
      have hsz : ∀ kv ∈ fs, sizeOf kv.2 ≤ n := by
        intro kv hkv
        have := @sizeOf_lt_of_mem_jobj kv.1 kv.2 i fs (by simpa using hkv)
        omega
      have hfg : stableSerializeEntries fs = stableSerializeEntries gs :=
        haux fs gs hvals hsz
      have hgh : (stableSerializeEntries gs).Perm (stableSerializeEntries hs) := by
        rw [stableSerializeEntries_eq_map, stableSerializeEntries_eq_map]
        exact hperm.map _
      have hnd1 : ((stableSerializeEntries fs).map Prod.fst).Nodup := by
        rw [stableSerializeEntries_map_fst]; exact hnd
      have hsorted : insertionSortB pairLe (stableSerializeEntries fs) =
          insertionSortB pairLe (stableSerializeEntries hs) :=
        insertionSortB_pairs_eq (hfg ▸ hgh) hnd1
      simp only [stableSerialize]
      rw [hsorted]

/-! ## The signature pipeline under key-insertion-order equivalence -/

lemma orderedInsertB_forall₂ {R : α → α → Prop} {le : α → α → Bool}
    (hcomp : ∀ a b x y, R a b → R x y → le a x = le b y) {a b : α}
    {l₁ l₂ : List α} (hab : R a b) (hl : List.Forall₂ R l₁ l₂) :
    List.Forall₂ R (orderedInsertB le a l₁) (orderedInsertB le b l₂) := by
  induction hl with
  | nil => exact List.Forall₂.cons hab List.Forall₂.nil
  | cons hxy hrest ihl =>
    rename_i x y m₁ m₂
    by_cases h : le a x = true
    · have h2 : le b y = true := (hcomp a b x y hab hxy) ▸ h
      rw [orderedInsertB, if_pos h, orderedInsertB, if_pos h2]
      exact List.Forall₂.cons hab (List.Forall₂.cons hxy hrest)
    · have h2 : ¬ le b y = true := fun hh => h ((hcomp a b x y hab hxy) ▸ hh)
      rw [orderedInsertB, if_neg h, orderedInsertB, if_neg h2]
      exact List.Forall₂.cons hxy ihl

lemma insertionSortB_forall₂ {R : α → α → Prop} {le : α → α → Bool}
    (hcomp : ∀ a b x y, R a b → R x y → le a x = le b y)
    {l₁ l₂ : List α} (hl : List.Forall₂ R l₁ l₂) :
    List.Forall₂ R (insertionSortB le l₁) (insertionSortB le l₂) := by
  induction hl with
  | nil => exact List.Forall₂.nil
  | cons hxy hrest ihl =>
    exact orderedInsertB_forall₂ hcomp hxy ihl

/-- The group relation of `GroupsKeyPerm`, for one pair of groups. -/
def GroupRel (g h : BucketGroup) : Prop :=
  g.bucket = h.bucket ∧ g.isError = h.isError ∧ g.count = h.count ∧
    List.Forall₂ KeyPerm g.samples h.samples

lemma groupLe_congr {a b x y : BucketGroup} (hab : GroupRel a b) (hxy : GroupRel x y) :
    groupLe a x = groupLe b y := by
  unfold groupLe
  rw [hab.1, hxy.1, hab.2.1, hxy.2.1]

lemma keyPermList_of_forall₂ {xs ys : List JVal} (h : List.Forall₂ KeyPerm xs ys) :
    KeyPermList xs ys := by
  induction h with
  | nil => exact KeyPermList.nil
  | cons hxy hrest ihl => exact KeyPermList.cons hxy ihl

lemma groupToJVal_keyPerm {g h : BucketGroup} (hr : GroupRel g h) :
    KeyPerm (groupToJVal g) (groupToJVal h) := by
  obtain ⟨hb, he, hc, hsamp⟩ := hr
  unfold groupToJVal
  rw [hb, he, hc]
  refine KeyPerm.jobj 0 0 (by simp) ?_ (List.Perm.refl _)
  exact KeyPermFields.cons (KeyPerm.jstr _) (KeyPermFields.cons (KeyPerm.jbool _)
    (KeyPermFields.cons (KeyPerm.jnum _) (KeyPermFields.cons
      (KeyPerm.jarr (keyPermList_of_forall₂ hsamp)) KeyPermFields.nil)))

lemma keyPermList_map_groupToJVal {gs hs : List BucketGroup}
    (h : List.Forall₂ GroupRel gs hs) :
    KeyPermList (gs.map groupToJVal) (hs.map groupToJVal) := by
  induction h with
  | nil => exact KeyPermList.nil
  | cons hxy hrest ihl => exact KeyPermList.cons (groupToJVal_keyPerm hxy) ihl

/-- `buildRouteTypeSignature` returns the same hash on bucketed group data equal up
to mapping key insertion order. -/
lemma buildRouteTypeSignature_keyPerm {rid : String} {gs hs : List BucketGroup}
    (h : GroupsKeyPerm gs hs) :
    buildRouteTypeSignature rid gs = buildRouteTypeSignature rid hs := by
  have h2 : List.Forall₂ GroupRel gs hs := h
  have hsorted : List.Forall₂ GroupRel (sortGroupsForStableOutput gs)
      (sortGroupsForStableOutput hs) :=
    @insertionSortB_forall₂ BucketGroup GroupRel groupLe
      (fun a b x y hab hxy => groupLe_congr hab hxy) gs hs h2
  have hkp : KeyPerm
      (.jobj 0 [("routeId", .jstr rid),
        ("normalized", .jarr ((sortGroupsForStableOutput gs).map groupToJVal))])
      (.jobj 0 [("routeId", .jstr rid),
        ("normalized", .jarr ((sortGroupsForStableOutput hs).map groupToJVal))]) := by
    refine KeyPerm.jobj 0 0 (by simp) ?_ (List.Perm.refl _)
    exact KeyPermFields.cons (KeyPerm.jstr _) (KeyPermFields.cons
      (KeyPerm.jarr (keyPermList_map_groupToJVal hsorted)) KeyPermFields.nil)
  unfold buildRouteTypeSignature
  exact congrArg fnv1aHash (stableSerialize_keyPerm _ _ _ (Nat.le_refl _) hkp)

/-! ## The hash is a fixed-width 8-hex-digit string -/

lemma hexNibbles_length (n : Nat) : (hexNibbles n).length = 8 := by
  simp [hexNibbles]

lemma natToHex_length_le (n : Nat) : (natToHex n).length ≤ 8 := by
  unfold natToHex
  cases h : (hexNibbles n).dropWhile (fun d => d = 0) with
  | nil => decide
  | cons d ds =>
    have h1 : ((hexNibbles n).dropWhile (fun d => d = 0)).length ≤ (hexNibbles n).length :=
      (List.dropWhile_sublist _).length_le
    rw [h] at h1
    rw [hexNibbles_length] at h1
    simpa using h1

lemma padStartZeros_length {w : Nat} {s : String} (h : s.length ≤ w) :
    (padStartZeros w s).length = w := by
  unfold padStartZeros
  by_cases hl : s.length < w
  · rw [if_pos hl]
    rw [String.length_append]
    simp only [String.length_mk, List.length_replicate]
    omega
  · rw [if_neg hl]
    omega

/-- Every hash produced by `fnv1aHash` is exactly 8 characters. -/
lemma fnv1aHash_length (input : String) : (fnv1aHash input).length = 8 :=
  padStartZeros_length (natToHex_length_le _)

/-! ## The skip path of updateTypeDefinition -/

/-- When the stored signature for the route equals the one computed from the
current window, `updateTypeDefinition` reports no change and leaves the stored
types untouched. -/
lemma updateTypeDefinition_noop (fmt : String → String) (now : Nat)
    (visited : List Nat) (route : ApiRoute) (allRequests : List RecordedRequest)
    (types : List GeneratedType)
    (hsig : ((types.find? (fun item => item.routeId == route.id)).bind
        (fun t => t.signature)) =
      some (buildRouteTypeSignature route.id
        (buildGroupedSamples (windowOf route allRequests)))) :
    updateTypeDefinition fmt now visited route allRequests types = (false, types) := by
  unfold updateTypeDefinition
  cases hw : windowOf route allRequests with
  | nil => rfl
  | cons r rest =>
    rw [hw] at hsig
    cases hg : buildGroupedSamples (r :: rest) with
    | nil => simp [hg]
    | cons g gs =>
      rw [hg] at hsig
      simp only [hg, hsig, beq_self_eq_true, if_pos]

/-- Shape facts about the tail of generateTypeName: never empty, always suffixed
with `Response`, never digit-leading. -/
lemma typeNameFromCleaned_shape (cleaned : List String) :
    typeNameFromCleaned cleaned ≠ "" ∧
    "Response".data <:+ (typeNameFromCleaned cleaned).data ∧
    startsWithDigit (typeNameFromCleaned cleaned) = false := by
  unfold typeNameFromCleaned
  cases hc : cleaned.isEmpty with
  | true =>
    simp only [hc, if_true]
    exact ⟨by decide, ⟨['A', 'p', 'i'], by decide⟩, by decide⟩
  | false =>
    simp only [hc, Bool.false_eq_true, if_false]
    cases hd : startsWithDigit (String.join cleaned ++ "Response") with
    | false =>
      simp only [hd, Bool.false_eq_true, if_false]
      have hd2 : (String.join cleaned ++ "Response").data =
          (String.join cleaned).data ++ "Response".data := String.data_append _ _
      refine ⟨?_, ⟨(String.join cleaned).data, hd2.symm⟩, ?_⟩
      · rw [Ne, String.ext_iff, hd2]
        simp
      · trivial
    | true =>
      simp only [hd, if_true]
      have hd2 : ("T" ++ (String.join cleaned ++ "Response")).data =
          'T' :: ((String.join cleaned).data ++ "Response".data) := by
        rw [String.data_append, String.data_append]
        rfl
      refine ⟨?_, ?_, ?_⟩
      · rw [Ne, String.ext_iff, hd2]
        simp
      · exact ⟨'T' :: (String.join cleaned).data, by rw [hd2]; simp⟩
      · simp [startsWithDigit, hd2]

/-! # Claim theorems -/

/-- C1 counterexample: the sample lists `[\x7b"a":1\x7d, \x7b"b":2\x7d]` and its
reversal are permutations of each other, yet generateTypeFromSamples renders them
to different text — field order follows first observation, so the output is not
byte-identical under permutation. -/
theorem c1_order_independence_cex :
    ([JVal.jobj 0 [("a", .jnum 1)], JVal.jobj 1 [("b", .jnum 2)]] : List JVal).Perm
      [JVal.jobj 1 [("b", .jnum 2)], JVal.jobj 0 [("a", .jnum 1)]] ∧
    generateTypeFromSamples [] [JVal.jobj 0 [("a", .jnum 1)], JVal.jobj 1 [("b", .jnum 2)]]
        "T" DEFAULT_OPTIONS ≠
      generateTypeFromSamples [] [JVal.jobj 1 [("b", .jnum 2)], JVal.jobj 0 [("a", .jnum 1)]]
        "T" DEFAULT_OPTIONS :=
  ⟨List.Perm.swap _ _ _, by decide⟩

/-- C1 amended: running the sample aggregation on a permutation of a sample list
yields the same set of rendered field names (the property map's key list is a
permutation), but the rendered declaration text is not byte-identical in general:
both the field order and the union order follow first-observation order. -/
theorem c1_order_independence {l₁ l₂ : List JVal} (h : l₁.Perm l₂) :
    ((collectProps l₁).map Prod.fst).Perm ((collectProps l₂).map Prod.fst) := by
  rw [collectProps_keys, collectProps_keys]
  exact firstObservedKeys_perm h

/-- C1 witness: the amended theorem applied to the two concrete permuted lists of
the counterexample. -/
theorem c1_order_independence_witness :
    ([JVal.jobj 0 [("a", .jnum 1)], JVal.jobj 1 [("b", .jnum 2)]] : List JVal).Perm
      [JVal.jobj 1 [("b", .jnum 2)], JVal.jobj 0 [("a", .jnum 1)]] ∧
    ((collectProps [JVal.jobj 0 [("a", .jnum 1)], JVal.jobj 1 [("b", .jnum 2)]]).map
        Prod.fst).Perm
      ((collectProps [JVal.jobj 1 [("b", .jnum 2)], JVal.jobj 0 [("a", .jnum 1)]]).map
        Prod.fst) :=
  ⟨List.Perm.swap _ _ _, c1_order_independence (List.Perm.swap _ _ _)⟩

/-- C2: the claim states that classifying a self-referential sample terminates with
the circular-reference sentinel.  The code violates this: on the sample
`s = \x7b"self": s\x7d` (heap `cyclicHeap`, the sample being reference 0), both
`inferType` and the samples-level aggregation are still running after any number
of recursive calls — the fuelled model returns `none` for every fuel, because
`inferType` reads the visited set but never adds to it, so the sentinel branch is
unreachable on this path and the JavaScript recursion never returns. -/
theorem c2_cycle_nontermination (fuel : Nat) :
    inferTypeH cyclicHeap DEFAULT_OPTIONS fuel [] (.href 0) = none ∧
    generateTypeFromSamplesH cyclicHeap fuel [] [.href 0] "CycleResponse"
      DEFAULT_OPTIONS = none :=
  ⟨inferTypeH_cyclic_none fuel, generateTypeFromSamplesH_cyclic_none fuel⟩

/-- C3 counterexample: for the single sample `\x7b"b":1, "a":2\x7d` the rendered
declaration lists `b` before `a` — first-observation order, not lexicographic
order by field name. -/
theorem c3_lexicographic_cex :
    generateTypeFromSamples [] [JVal.jobj 0 [("b", .jnum 1), ("a", .jnum 2)]] "T"
        DEFAULT_OPTIONS = "interface T \x7b\n  b: number;\n  a: number;\n\x7d" ∧
    ¬ List.Pairwise (fun x y => strLe x y = true)
      ((collectProps [JVal.jobj 0 [("b", .jnum 1), ("a", .jnum 2)]]).map Prod.fst) := by
  constructor
  · decide
  · decide

/-- C3 amended: in every rendered record declaration produced by
generateTypeFromSamples, the fields appear in the order their names were first
observed across the input samples (the property map's insertion order), not in
lexicographic order. -/
theorem c3_field_order (samples : List JVal) :
    (collectProps samples).map Prod.fst = firstObservedKeys samples :=
  collectProps_keys samples

/-- C4 counterexample: for the samples `[\x7b"a":1\x7d, \x7b\x7d]` the field is
rendered `a?: number;` — the string `number | undefined` appears nowhere in the
output, so the absent field is not expressed as an `undefined` union alternative. -/
theorem c4_optional_cex :
    generateTypeFromSamples [] [JVal.jobj 0 [("a", .jnum 1)], JVal.jobj 1 []] "T"
        DEFAULT_OPTIONS = "interface T \x7b\n  a?: number;\n\x7d" ∧
    ¬ ("undefined".data <:+:
      (generateTypeFromSamples [] [JVal.jobj 0 [("a", .jnum 1)], JVal.jobj 1 []] "T"
        DEFAULT_OPTIONS).data) := by
  constructor
  · decide
  · decide

/-- C4 amended: for samples `[\x7b"a":n\x7d, \x7b\x7d]` (any number `n`), a field
absent from some samples is marked optional with the `?` marker after the key,
rendering as `a?: number;`; no `undefined` alternative is appended to the union. -/
theorem c4_optional_marker (n : Int) :
    generateTypeFromSamples [] [JVal.jobj 0 [("a", .jnum n)], JVal.jobj 1 []] "T"
      DEFAULT_OPTIONS = "interface T \x7b\n  a?: number;\n\x7d" :=
  rfl

/-- C5: the signature computation is idempotent — on bucketed group data equal up
to mapping-key insertion order it returns the same fixed-width (8-character) hash
string — and when the stored signature of the route already equals the signature
computed from the unchanged request window, updateTypeDefinition returns `false`
and leaves the stored generated types untouched. -/
theorem c5_signature_idempotent_skip
    (rid : String) (groups₁ groups₂ : List BucketGroup)
    (fmt : String → String) (now : Nat) (visited : List Nat) (route : ApiRoute)
    (allRequests : List RecordedRequest) (types : List GeneratedType)
    (hg : GroupsKeyPerm groups₁ groups₂)
    (hsig : ((types.find? (fun item => item.routeId == route.id)).bind
        (fun t => t.signature)) =
      some (buildRouteTypeSignature route.id
        (buildGroupedSamples (windowOf route allRequests)))) :
    buildRouteTypeSignature rid groups₁ = buildRouteTypeSignature rid groups₂ ∧
    (buildRouteTypeSignature rid groups₁).length = 8 ∧
    updateTypeDefinition fmt now visited route allRequests types = (false, types) :=
  ⟨buildRouteTypeSignature_keyPerm hg, fnv1aHash_length _,
    updateTypeDefinition_noop fmt now visited route allRequests types hsig⟩

/-- C5 witness: the theorem applied to a concrete group pair differing only in
field insertion order, and a concrete stored state whose signature matches its
window. -/
theorem c5_signature_idempotent_skip_witness :
    buildRouteTypeSignature "r"
        [⟨.SUCCESS_2XX, false, [.jobj 0 [("b", .jnum 1), ("a", .jnum 2)]], 1⟩] =
      buildRouteTypeSignature "r"
        [⟨.SUCCESS_2XX, false, [.jobj 0 [("a", .jnum 2), ("b", .jnum 1)]], 1⟩] ∧
    (buildRouteTypeSignature "r"
        [⟨.SUCCESS_2XX, false, [.jobj 0 [("b", .jnum 1), ("a", .jnum 2)]], 1⟩]).length = 8 ∧
    updateTypeDefinition id 0 [] ⟨"r", "users"⟩
        [⟨"r", some (.jobj 0 [("a", .jnum 1)]), some 200⟩]
        [⟨"r", "users", "UsersResponse", "", 1, 0,
          some (buildRouteTypeSignature "r" (buildGroupedSamples (windowOf ⟨"r", "users"⟩
            [⟨"r", some (.jobj 0 [("a", .jnum 1)]), some 200⟩])))⟩] =
      (false,
        [⟨"r", "users", "UsersResponse", "", 1, 0,
          some (buildRouteTypeSignature "r" (buildGroupedSamples (windowOf ⟨"r", "users"⟩
            [⟨"r", some (.jobj 0 [("a", .jnum 1)]), some 200⟩])))⟩]) :=
  c5_signature_idempotent_skip "r"
    [⟨.SUCCESS_2XX, false, [.jobj 0 [("b", .jnum 1), ("a", .jnum 2)]], 1⟩]
    [⟨.SUCCESS_2XX, false, [.jobj 0 [("a", .jnum 2), ("b", .jnum 1)]], 1⟩]
    id 0 [] ⟨"r", "users"⟩
    [⟨"r", some (.jobj 0 [("a", .jnum 1)]), some 200⟩]
    [⟨"r", "users", "UsersResponse", "", 1, 0,
      some (buildRouteTypeSignature "r" (buildGroupedSamples (windowOf ⟨"r", "users"⟩
        [⟨"r", some (.jobj 0 [("a", .jnum 1)]), some 200⟩])))⟩]
    (List.Forall₂.cons
      ⟨rfl, rfl, rfl,
        List.Forall₂.cons
          (KeyPerm.jobj 0 0 (by simp)
            (KeyPermFields.cons (KeyPerm.jnum 1)
              (KeyPermFields.cons (KeyPerm.jnum 2) KeyPermFields.nil))
            (List.Perm.swap ("a", JVal.jnum 2) ("b", JVal.jnum 1) []))
          List.Forall₂.nil⟩
      List.Forall₂.nil)
    rfl

/-- C6 counterexample: status code 150 is neither missing, zero, below 100 nor at
least 600, yet the code places it in the `other` bucket — the claim's enumeration
omits the 1xx range. -/
theorem c6_status_buckets_cex :
    getStatusBucket (some 150) = StatusBucket.OTHER ∧
    ¬ ((some (150 : Int)) = none ∨ (150 : Int) = 0 ∨ (150 : Int) < 100 ∨
        (600 : Int) ≤ 150) := by
  constructor
  · decide
  · decide

/-- C6 amended: the outcome bucket is determined by the status code exactly as:
200–299 to 2xx, 300–399 to 3xx, 400–499 to 4xx, 500–599 to 5xx, and a missing
status code or one outside 200–599 (including 1xx, zero, below-100 and
at-least-600 codes) to the other bucket; independently, isError is true exactly
when the status code is present and at least 400. -/
theorem c6_status_buckets (sc : Option Int) :
    (getStatusBucket sc = .SUCCESS_2XX ↔ ∃ n, sc = some n ∧ 200 ≤ n ∧ n ≤ 299) ∧
    (getStatusBucket sc = .REDIRECT_3XX ↔ ∃ n, sc = some n ∧ 300 ≤ n ∧ n ≤ 399) ∧
    (getStatusBucket sc = .CLIENT_ERROR_4XX ↔ ∃ n, sc = some n ∧ 400 ≤ n ∧ n ≤ 499) ∧
    (getStatusBucket sc = .SERVER_ERROR_5XX ↔ ∃ n, sc = some n ∧ 500 ≤ n ∧ n ≤ 599) ∧
    (getStatusBucket sc = .OTHER ↔ sc = none ∨ ∃ n, sc = some n ∧ (n < 200 ∨ 600 ≤ n)) ∧
    (isErrorStatus sc = true ↔ ∃ n, sc = some n ∧ 400 ≤ n) := by
  cases sc with
  | none => simp [getStatusBucket, isErrorStatus]
  | some n =>
    simp only [getStatusBucket, isErrorStatus, Option.getD_some, Option.some.injEq,
      decide_eq_true_eq]
    split_ifs with h1 h2 h3 h4 h5 <;>
      constructor <;>
      simp_all <;>
      omega

/-- C7: for the samples `[\x7b"a":1\x7d, \x7b"a":"x"\x7d, \x7b"a":null\x7d]` the
field `a` renders with type text `number | string | null`: the distinct observed
value types are deduplicated into a union and the observed null appends the
`null` alternative last. -/
theorem c7_union_null_last :
    generateTypeFromSamples []
        [.jobj 0 [("a", .jnum 1)], .jobj 1 [("a", .jstr "x")], .jobj 2 [("a", .jnull)]]
        "T" DEFAULT_OPTIONS =
      "interface T \x7b\n  a: number | string | null;\n\x7d" := by
  decide

/-- C8 counterexample: classification is not free of cross-call state.  After
`generateTypeFromJson` classifies object 1 (leaving it in the module-level
visited set), classifying a fresh sample that contains object 1 through
`generateTypeFromSamples` renders the circular-reference sentinel, while the same
call from a fresh state fully analyzes it — the result depends on which
classification calls preceded it. -/
theorem c8_no_cross_call_state_cex :
    generateTypeFromSamples
        ((generateTypeFromJson [] (.jobj 1 [("x", .jobj 0 [("n", .jnum 1)])]) "A"
          DEFAULT_OPTIONS).2)
        [.jobj 2 [("a", .jobj 1 [("x", .jobj 0 [("n", .jnum 1)])])]] "T"
        DEFAULT_OPTIONS ≠
      generateTypeFromSamples []
        [.jobj 2 [("a", .jobj 1 [("x", .jobj 0 [("n", .jnum 1)])])]] "T"
        DEFAULT_OPTIONS := by
  decide

/-- C8 amended: `generateTypeFromJson` resets the module-level guard at the start
of each call, so its returned text is independent of whatever state previous
calls left behind, and within one call sibling occurrences of the same nested
object are both fully analyzed (neither replaced by the sentinel); but the guard
is left populated after the call and is read, never reset, by `inferType` and
`generateTypeFromSamples`, so classification through those entry points can
depend on preceding `generateTypeFromJson` calls. -/
theorem c8_guard_scoping (st₁ st₂ : List Nat) (v : JVal) (name : String)
    (opts : TypeGenerationOptions) :
    (generateTypeFromJson st₁ v name opts).1 = (generateTypeFromJson st₂ v name opts).1 ∧
    (generateTypeFromJson []
        (.jobj 1 [("x", .jobj 0 [("n", .jnum 1)]), ("y", .jobj 0 [("n", .jnum 1)])])
        "A" DEFAULT_OPTIONS).1 =
      "interface A \x7b\n  x: \x7b n: number \x7d;\n  y: \x7b n: number \x7d;\n\x7d" :=
  ⟨rfl, by decide⟩

/-- C9: samples that are not object-shaped contribute nothing to the property map:
the map built from any sample list equals the one built from its object-shaped
samples only — non-object samples are skipped, raise no error, do not abort the
remaining samples and do not remove or alter fields contributed by object-shaped
samples. -/
theorem c9_non_object_samples_skipped (samples : List JVal) :
    collectProps samples = collectProps (samples.filter isObjectSample) :=
  collectFold_filter samples []

/-- C10: for every route-name string, generateTypeName returns a non-empty string
that ends with `Response` and does not begin with a decimal digit (digit-leading
names are prefixed with `T`, and an input reducing to no usable segments yields
`ApiResponse`). -/
theorem c10_type_name_shape (s : String) :
    generateTypeName s ≠ "" ∧
    "Response".data <:+ (generateTypeName s).data ∧
    startsWithDigit (generateTypeName s) = false :=
  typeNameFromCleaned_shape _
